import Mathlib

/-!
Verification of the per-request engine-process lifecycle manager of the
r-chess engine service (`src/engine_service/main.py`).

The service exposes one operation, `analyze_position`: it validates the
request (pydantic field constraints plus a fen validator), parses the FEN
into a board, spawns a fresh UCI engine process, optionally applies a
best-effort strength limit, runs a depth-bounded search, extracts the best
move and a White-perspective score (mates mapped via a 100000 sentinel),
falls back to `engine.play` when no principal variation was returned, and
finally quits the engine unconditionally.

The embedding models the external world (FEN parsing by the chess library
and the engine process) as an oracle `Env` of possibly-failing operations,
and the handler as a pure function from `Env` and request to an
`Except HTTPException AnalysisResponse` together with a `Trace` recording
the observable side effects (parse attempts, spawn attempts, successful
acquisitions, releases, configure calls, analyse calls and their depth
limit, fallback play calls).
-/

namespace EngineService

/-- Chess side, as in python-chess `chess.WHITE` / `chess.BLACK`. -/
inductive Color where
  | white
  | black
deriving DecidableEq, Repr

/-- python-chess evaluation score object: `Cp(v)` centipawns, `Mate(n)`
(n > 0: the pov side mates in n; n < 0: the pov side is mated in |n|;
n = 0: the pov side is checkmated), or `MateGiven` (the pov side has
delivered checkmate). -/
inductive Score where
  | cp (v : Int)
  | mate (n : Int)
  | mateGiven
deriving DecidableEq, Repr

/-- Negation of a score, as in python-chess: `Cp(v)` negates the value;
`Mate(0)` and `MateGiven` swap; `Mate(n)` negates the distance. -/
def Score.neg : Score → Score
  | Score.cp v => Score.cp (-v)
  | Score.mate n => if n = 0 then Score.mateGiven else Score.mate (-n)
  | Score.mateGiven => Score.mate 0

/-- python-chess `Score.score(mate_score=m)`: centipawn scores pass
through; `Mate(n)` maps to `m - n` when `n > 0` and `-m - n` otherwise;
`MateGiven` maps to `m`.  The service always supplies `mate_score`, so the
result is total here. -/
def Score.score (s : Score) (mateScore : Int) : Int :=
  match s with
  | Score.cp v => v
  | Score.mate n => if 0 < n then mateScore - n else -mateScore - n
  | Score.mateGiven => mateScore

/-- python-chess `PovScore`: a relative score together with the side it is
relative to. -/
structure PovScore where
  relative : Score
  turn : Color
deriving DecidableEq, Repr

/-- python-chess `PovScore.white()`: the score from White's perspective. -/
def PovScore.white (s : PovScore) : Score :=
  if s.turn = Color.white then s.relative else Score.neg s.relative

/-- A parsed board, as produced by `chess.Board(fen)`.  The handler only
hands the board to the engine; `hasLegalMoves` records whether the
position is terminal (no legal moves), which the handler itself never
inspects but the specification talks about. -/
structure Board where
  fenStr : String
  turn : Color
  hasLegalMoves : Bool
deriving DecidableEq, Repr

/-- A chess move; the handler only ever calls `.uci()` on it. -/
structure Move where
  uciStr : String
deriving DecidableEq, Repr

/-- python-chess `Move.uci()`. -/
def Move.uci (m : Move) : String := m.uciStr

/-- The info dictionary returned by `engine.analyse`: an optional
`PovScore` under key "score" and an optional principal variation under
key "pv". -/
structure AnalyseInfo where
  score : Option PovScore
  pv : Option (List Move)
deriving DecidableEq, Repr

/-- The result of `engine.play`: an optional chosen move. -/
structure PlayResult where
  move : Option Move
deriving DecidableEq, Repr

/-- Oracle for one call's interactions with the engine process: each
operation either succeeds or raises (modelled as `Except.error` with the
exception message).  `configure` receives the Elo value, `analyse` and
`play` receive the board and the depth limit, as in the source. -/
structure EngineBehavior where
  popenResult : Except String Unit
  configure : Int → Except String Unit
  analyse : Board → Int → Except String AnalyseInfo
  play : Board → Int → Except String PlayResult
  quitResult : Except String Unit

/-- The environment of one call: FEN parsing by `chess.Board` (raising
with a message on malformed input) and the engine process behavior. -/
structure Env where
  parseFen : String → Except String Board
  engine : EngineBehavior

/-- FastAPI `HTTPException`: a status code and a detail message. -/
structure HTTPException where
  status : Nat
  detail : String
deriving DecidableEq, Repr

/-- The validated request body (pydantic `AnalysisRequest`): fen string
(already stripped by the validator), depth in 1..30, optional Elo limit
in 1350..2850. -/
structure AnalysisRequest where
  fen : String
  depth : Int
  uci_elo : Option Int
deriving DecidableEq, Repr

/-- The response model: optional best move in UCI notation, optional
centipawn score from White's perspective (mate mapped via mate_score),
and the depth. -/
structure AnalysisResponse where
  best_move : Option String
  score : Option Int
  depth : Int
deriving DecidableEq, Repr

/-- Observable side effects of one call: parse attempts, engine process
spawn attempts, successful acquisitions, releases (quit calls), configure
calls, analyse calls and the depth limit passed to the search, and
fallback play calls. -/
structure Trace where
  parseCalls : Nat
  spawnAttempts : Nat
  acquisitions : Nat
  releases : Nat
  configureCalls : Nat
  analyseCalls : Nat
  analyseDepth : Option Int
  playCalls : Nat
deriving DecidableEq, Repr

/-- The trace of a call that performed no external interaction. -/
def Trace.empty : Trace := ⟨0, 0, 0, 0, 0, 0, none, 0⟩

/-- The handler `analyze_position` of `src/engine_service/main.py`,
translated clause by clause.  FEN parse failure returns 400 before any
spawn; popen failure returns 500; the optional configure call's outcome is
discarded (`except Exception: pass`); `analyse` supplies score and pv;
`pv = info.get("pv") or []`; when no pv move exists the fallback
`engine.play` is asked for a move; any exception in the body becomes a
500; the `finally` block quits the engine, swallowing quit failures. -/
def analyze_position (env : Env) (req : AnalysisRequest) :
    Except HTTPException AnalysisResponse × Trace :=
  match env.parseFen req.fen with
  | Except.error ex =>
      (Except.error ⟨400, "Invalid FEN: " ++ ex⟩,
       ⟨1, 0, 0, 0, 0, 0, none, 0⟩)
  | Except.ok board =>
      match env.engine.popenResult with
      | Except.error ex =>
          (Except.error ⟨500, "Failed to start Stockfish: " ++ ex⟩,
           ⟨1, 1, 0, 0, 0, 0, none, 0⟩)
      | Except.ok _ =>
          let confCalls : Nat :=
            match req.uci_elo with
            | some e =>
                match env.engine.configure e with
                | Except.ok _ => 1
                | Except.error _ => 1
            | none => 0
          match env.engine.analyse board req.depth with
          | Except.error ex =>
              (Except.error ⟨500, ex⟩,
               ⟨1, 1, 1, 1, confCalls, 1, some req.depth, 0⟩)
          | Except.ok info =>
              let scoreVal : Option Int :=
                match info.score with
                | some s => some (Score.score (PovScore.white s) 100000)
                | none => none
              match (info.pv).getD [] with
              | m :: _ =>
                  (Except.ok ⟨some (Move.uci m), scoreVal, req.depth⟩,
                   ⟨1, 1, 1, 1, confCalls, 1, some req.depth, 0⟩)
              | [] =>
                  match env.engine.play board req.depth with
                  | Except.error ex =>
                      (Except.error ⟨500, ex⟩,
                       ⟨1, 1, 1, 1, confCalls, 1, some req.depth, 1⟩)
                  | Except.ok r =>
                      (Except.ok ⟨Option.map Move.uci r.move, scoreVal, req.depth⟩,
                       ⟨1, 1, 1, 1, confCalls, 1, some req.depth, 1⟩)

/-- The raw request body before pydantic validation: fen as sent, depth
absent meaning the default 15, optional Elo. -/
structure RawRequest where
  fen : String
  depth : Option Int
  uci_elo : Option Int
deriving DecidableEq, Repr

/-- Which request field a validation error is attached to. -/
inductive FieldId where
  | fenField
  | depthField
  | eloField
deriving DecidableEq, Repr

/-- One pydantic validation error: the offending field and a message. -/
structure FieldError where
  field : FieldId
  msg : String
deriving DecidableEq, Repr

/-- Python `str.strip()` on the character list: drop leading and trailing
whitespace. -/
def stripChars (l : List Char) : List Char :=
  ((l.dropWhile Char.isWhitespace).reverse.dropWhile Char.isWhitespace).reverse

/-- Python `str.strip()`: the string with leading and trailing whitespace
removed. -/
def pyStrip (s : String) : String := ⟨stripChars s.data⟩

/-- The `fen_must_be_non_empty` field validator: strip the string and
reject when the result is empty, otherwise return the stripped value. -/
def fen_must_be_non_empty (v : String) : Except String String :=
  if pyStrip v = "" then Except.error "fen must be non-empty"
  else Except.ok (pyStrip v)

/-- Pydantic errors of the depth field: `ge=1, le=30` with default 15. -/
def depthErrsOf (raw : RawRequest) : List FieldError :=
  if 1 ≤ (raw.depth).getD 15 ∧ (raw.depth).getD 15 ≤ 30 then []
  else [⟨FieldId.depthField, "depth out of range 1..30"⟩]

/-- Pydantic errors of the optional uci_elo field: `ge=1350, le=2850`. -/
def eloErrsOf (raw : RawRequest) : List FieldError :=
  match raw.uci_elo with
  | none => []
  | some e =>
      if 1350 ≤ e ∧ e ≤ 2850 then []
      else [⟨FieldId.eloField, "uci_elo out of range 1350..2850"⟩]

/-- Pydantic validation of the request model: the fen field validator,
the `ge=1, le=30` constraint on depth (default 15), and the
`ge=1350, le=2850` constraint on the optional uci_elo.  Errors from all
fields are collected; the request reaches the handler only when no field
fails. -/
def validateRequest (raw : RawRequest) : Except (List FieldError) AnalysisRequest :=
  match fen_must_be_non_empty raw.fen with
  | Except.error m =>
      Except.error (⟨FieldId.fenField, m⟩ :: (depthErrsOf raw ++ eloErrsOf raw))
  | Except.ok v =>
      match depthErrsOf raw ++ eloErrsOf raw with
      | [] => Except.ok ⟨v, (raw.depth).getD 15, raw.uci_elo⟩
      | errs => Except.error errs

/-- Outcome of the full endpoint: a 422 request validation error (the
handler never ran), an HTTP error raised by the handler, or a success. -/
inductive ServiceResult where
  | invalid (errs : List FieldError)
  | failure (e : HTTPException)
  | success (r : AnalysisResponse)
deriving DecidableEq, Repr

/-- The full `/analyze` endpoint: FastAPI validates the request model
before the handler runs; a validation failure produces a client error
with no side effects, otherwise the handler runs on the validated
request. -/
def handleAnalyze (env : Env) (raw : RawRequest) : ServiceResult × Trace :=
  match validateRequest raw with
  | Except.error errs => (ServiceResult.invalid errs, Trace.empty)
  | Except.ok req =>
      match analyze_position env req with
      | (Except.error e, t) => (ServiceResult.failure e, t)
      | (Except.ok r, t) => (ServiceResult.success r, t)

/-- The FEN of the standard starting position. -/
def startFen : String := "rnbqkbnr/pppppppp/8/8/8/8/PPPPPPPP/RNBQKBNR w KQkq - 0 1"

/-- The standard starting position as a parsed board. -/
def startBoard : Board := ⟨startFen, Color.white, true⟩

/-- An analyse result of a healthy engine at the starting position:
a small centipawn advantage for the side to move and the principal
variation starting with e2e4. -/
def okInfo : AnalyseInfo := ⟨some ⟨Score.cp 20, Color.white⟩, some [⟨"e2e4"⟩]⟩

/-- A healthy engine: every operation succeeds; analyse reports `okInfo`;
play picks e2e4. -/
def okEngine : EngineBehavior :=
  ⟨Except.ok (), fun _ => Except.ok (), fun _ _ => Except.ok okInfo,
   fun _ _ => Except.ok ⟨some ⟨"e2e4"⟩⟩, Except.ok ()⟩

/-- A healthy environment: every FEN parses to the starting position and
the engine is healthy. -/
def okEnv : Env := ⟨fun _ => Except.ok startBoard, okEngine⟩

/-- An environment whose FEN parser rejects every string with the message
"expected 8 rows". -/
def badFenEnv : Env := ⟨fun _ => Except.error "expected 8 rows", okEngine⟩

/-- A healthy engine whose strength-limit configuration raises (a build
without UCI_LimitStrength / UCI_Elo support). -/
def noEloEngine : EngineBehavior :=
  ⟨Except.ok (), fun _ => Except.error "engine does not support UCI_Elo",
   fun _ _ => Except.ok okInfo,
   fun _ _ => Except.ok ⟨some ⟨"e2e4"⟩⟩, Except.ok ()⟩

/-- A healthy environment except that strength configuration raises. -/
def noEloEnv : Env := ⟨fun _ => Except.ok startBoard, noEloEngine⟩

/-- A healthy engine whose quit raises (e.g. the process already died
after answering). -/
def quitFailEngine : EngineBehavior :=
  ⟨Except.ok (), fun _ => Except.ok (), fun _ _ => Except.ok okInfo,
   fun _ _ => Except.ok ⟨some ⟨"e2e4"⟩⟩,
   Except.error "engine process died before quit"⟩

/-- A healthy environment except that quit raises. -/
def quitFailEnv : Env := ⟨fun _ => Except.ok startBoard, quitFailEngine⟩

/-- The FEN of a fool's mate: White is checkmated and to move. -/
def matedFen : String :=
  "rnb1kbnr/pppp1ppp/8/4p3/6Pq/5P2/PPPPP2P/RNBQKBNR w KQkq - 1 3"

/-- The fool's mate position: White to move, no legal moves (terminal). -/
def matedBoard : Board := ⟨matedFen, Color.white, false⟩

/-- Engine behavior on the checkmated position: analyse reports mate 0
for the side to move with no principal variation; play finds no move. -/
def terminalEngine : EngineBehavior :=
  ⟨Except.ok (), fun _ => Except.ok (),
   fun _ _ => Except.ok ⟨some ⟨Score.mate 0, Color.white⟩, none⟩,
   fun _ _ => Except.ok ⟨none⟩, Except.ok ()⟩

/-- An environment presenting the terminal (checkmated) position. -/
def terminalEnv : Env := ⟨fun _ => Except.ok matedBoard, terminalEngine⟩

/-- Engine behavior finding a forced mate for White in 3: analyse reports
`Mate(3)` from White's point of view with a principal variation. -/
def mateIn3Engine : EngineBehavior :=
  ⟨Except.ok (), fun _ => Except.ok (),
   fun _ _ => Except.ok ⟨some ⟨Score.mate 3, Color.white⟩, some [⟨"d1h5"⟩]⟩,
   fun _ _ => Except.ok ⟨some ⟨"d1h5"⟩⟩, Except.ok ()⟩

/-- An environment in which the engine finds a forced mate in 3 for
White. -/
def mateIn3Env : Env := ⟨fun _ => Except.ok startBoard, mateIn3Engine⟩

end EngineService

namespace EngineService

/-- C1: for every call in which an engine session is successfully acquired
(popen succeeds), the session is released exactly once on every exit path,
and on every call outcome whatsoever the release count equals the
acquisition count. -/
theorem analyze_position_release_eq_acquire (env : Env) (req : AnalysisRequest) :
    ((analyze_position env req).2).releases = ((analyze_position env req).2).acquisitions ∧
    (((analyze_position env req).2).acquisitions = 1 →
      ((analyze_position env req).2).releases = 1) := by
  unfold analyze_position
  rcases h1 : env.parseFen req.fen with ex | board
  · simp [h1]
  · rcases h2 : env.engine.popenResult with ex2 | u
    · simp [h1, h2]
    · rcases h3 : env.engine.analyse board req.depth with ex3 | info
      · simp [h1, h2, h3]
      · rcases h4 : (info.pv).getD [] with _ | ⟨m, rest⟩
        · rcases h5 : env.engine.play board req.depth with ex5 | r <;>
            simp [h1, h2, h3, h4, h5]
        · simp [h1, h2, h3, h4]

end EngineService

namespace EngineService

/-- C1 witness: on a healthy environment the session is acquired once and
released once. -/
theorem analyze_position_release_eq_acquire_witness :
    ((analyze_position okEnv ⟨startFen, 15, none⟩).2).acquisitions = 1 ∧
    ((analyze_position okEnv ⟨startFen, 15, none⟩).2).releases = 1 :=
  ⟨rfl, (analyze_position_release_eq_acquire okEnv ⟨startFen, 15, none⟩).2 rfl⟩

/-- C2: for every request whose position string fails to parse, the
handler returns the 400 Invalid FEN client error immediately, and no
engine process is spawned, acquired, configured, searched, asked to play,
or released: a parse failure has no side effects. -/
theorem analyze_position_invalid_fen (env : Env) (req : AnalysisRequest) (ex : String)
    (h : env.parseFen req.fen = Except.error ex) :
    (analyze_position env req).1 = Except.error ⟨400, "Invalid FEN: " ++ ex⟩ ∧
    ((analyze_position env req).2).spawnAttempts = 0 ∧
    ((analyze_position env req).2).acquisitions = 0 ∧
    ((analyze_position env req).2).configureCalls = 0 ∧
    ((analyze_position env req).2).analyseCalls = 0 ∧
    ((analyze_position env req).2).playCalls = 0 ∧
    ((analyze_position env req).2).releases = 0 := by
  unfold analyze_position
  simp [h]

/-- C2 witness: a concrete malformed FEN yields the 400 error with zero
spawn attempts. -/
theorem analyze_position_invalid_fen_witness :
    badFenEnv.parseFen "totally/not/a/fen" = Except.error "expected 8 rows" ∧
    (analyze_position badFenEnv ⟨"totally/not/a/fen", 15, none⟩).1 =
      Except.error ⟨400, "Invalid FEN: " ++ "expected 8 rows"⟩ ∧
    ((analyze_position badFenEnv ⟨"totally/not/a/fen", 15, none⟩).2).spawnAttempts = 0 :=
  ⟨rfl,
   (analyze_position_invalid_fen badFenEnv ⟨"totally/not/a/fen", 15, none⟩
     "expected 8 rows" rfl).1,
   (analyze_position_invalid_fen badFenEnv ⟨"totally/not/a/fen", 15, none⟩
     "expected 8 rows" rfl).2.1⟩

end EngineService

namespace EngineService

/-- C3: for every raw request carrying a depth outside 1..30, request
validation rejects it as a client validation error attached to the depth
field, the handler never runs, and no FEN parse or engine process spawn
happens. -/
theorem handleAnalyze_bad_depth (env : Env) (raw : RawRequest) (d : Int)
    (hd : raw.depth = some d) (hout : d < 1 ∨ 30 < d) :
    (∃ errs, (handleAnalyze env raw).1 = ServiceResult.invalid errs ∧
      ∃ er ∈ errs, er.field = FieldId.depthField) ∧
    (handleAnalyze env raw).2.parseCalls = 0 ∧
    (handleAnalyze env raw).2.spawnAttempts = 0 ∧
    (handleAnalyze env raw).2.acquisitions = 0 := by
  have hcond : ¬(1 ≤ d ∧ d ≤ 30) := by omega
  have hde : depthErrsOf raw = [⟨FieldId.depthField, "depth out of range 1..30"⟩] := by
    unfold depthErrsOf
    rw [hd]
    simp only [Option.getD_some]
    rw [if_neg hcond]
  unfold handleAnalyze validateRequest
  rcases h1 : fen_must_be_non_empty raw.fen with m | v
  · simp [h1, hde, Trace.empty]
  · simp [h1, hde, Trace.empty]

/-- C3 witness: depth 0 on an otherwise healthy request and environment is
rejected with a depth-field validation error and zero spawns. -/
theorem handleAnalyze_bad_depth_witness :
    (∃ errs, (handleAnalyze okEnv ⟨startFen, some 0, none⟩).1 = ServiceResult.invalid errs ∧
      ∃ er ∈ errs, er.field = FieldId.depthField) ∧
    (handleAnalyze okEnv ⟨startFen, some 0, none⟩).2.spawnAttempts = 0 :=
  ⟨(handleAnalyze_bad_depth okEnv ⟨startFen, some 0, none⟩ 0 rfl (Or.inl (by decide))).1,
   (handleAnalyze_bad_depth okEnv ⟨startFen, some 0, none⟩ 0 rfl (Or.inl (by decide))).2.2.1⟩

end EngineService

namespace EngineService

/-- C10: for every raw request carrying a strength limit outside
1350..2850, request validation rejects the whole call as a client
validation error attached to the uci_elo field before any FEN parse or
engine process spawn, even though applying the limit itself is
best-effort. -/
theorem handleAnalyze_bad_elo (env : Env) (raw : RawRequest) (e : Int)
    (he : raw.uci_elo = some e) (hout : e < 1350 ∨ 2850 < e) :
    (∃ errs, (handleAnalyze env raw).1 = ServiceResult.invalid errs ∧
      ∃ er ∈ errs, er.field = FieldId.eloField) ∧
    (handleAnalyze env raw).2.parseCalls = 0 ∧
    (handleAnalyze env raw).2.spawnAttempts = 0 ∧
    (handleAnalyze env raw).2.acquisitions = 0 := by
  have hcond : ¬(1350 ≤ e ∧ e ≤ 2850) := by omega
  have hel : eloErrsOf raw = [⟨FieldId.eloField, "uci_elo out of range 1350..2850"⟩] := by
    unfold eloErrsOf
    rw [he]
    simp [hcond]
  unfold handleAnalyze validateRequest
  rcases h1 : fen_must_be_non_empty raw.fen with m | v
  · simp [h1, hel, Trace.empty]
    exact ⟨⟨FieldId.eloField, "uci_elo out of range 1350..2850"⟩, Or.inr rfl, rfl⟩
  · rcases h2 : depthErrsOf raw ++ eloErrsOf raw with _ | ⟨e1, erest⟩
    · simp [hel] at h2
    · have hmem : (⟨FieldId.eloField, "uci_elo out of range 1350..2850"⟩ : FieldError)
          ∈ e1 :: erest := by
        rw [← h2]
        simp [hel]
      refine ⟨⟨e1 :: erest, ?_, ⟨FieldId.eloField, "uci_elo out of range 1350..2850"⟩,
        hmem, rfl⟩, ?_, ?_, ?_⟩ <;> simp [h1, h2, Trace.empty]

/-- C10 witness: uci_elo 3000 on an otherwise healthy request is rejected
with an elo-field validation error and zero spawns. -/
theorem handleAnalyze_bad_elo_witness :
    (∃ errs, (handleAnalyze okEnv ⟨startFen, none, some 3000⟩).1 = ServiceResult.invalid errs ∧
      ∃ er ∈ errs, er.field = FieldId.eloField) ∧
    (handleAnalyze okEnv ⟨startFen, none, some 3000⟩).2.spawnAttempts = 0 :=
  ⟨(handleAnalyze_bad_elo okEnv ⟨startFen, none, some 3000⟩ 3000 rfl (Or.inr (by decide))).1,
   (handleAnalyze_bad_elo okEnv ⟨startFen, none, some 3000⟩ 3000 rfl (Or.inr (by decide))).2.2.1⟩

end EngineService

namespace EngineService

/-- Helper: the fen validator strips the input, and succeeds exactly with
the stripped value. -/
theorem fen_validator_ok_eq_strip (w v : String)
    (hv : fen_must_be_non_empty w = Except.ok v) : v = pyStrip w := by
  unfold fen_must_be_non_empty at hv
  by_cases hw : pyStrip w = ""
  · rw [if_pos hw] at hv
    exact absurd hv (by simp)
  · rw [if_neg hw] at hv
    exact (Except.ok.inj hv).symm

end EngineService

namespace EngineService

/-- C9: for every raw request whose position string is empty or
whitespace-only, the fen validator strips and rejects it before the
handler runs — no FEN parse is attempted, no engine process is spawned,
and the failure is a request-validation error on the fen field; moreover
every request that does reach the handler carries the stripped fen, so
leading and trailing whitespace is removed before parsing. -/
theorem handleAnalyze_blank_fen (env : Env) (raw : RawRequest)
    (h : pyStrip raw.fen = "") :
    (∃ errs, (handleAnalyze env raw).1 = ServiceResult.invalid errs ∧
      ∃ er ∈ errs, er.field = FieldId.fenField) ∧
    (handleAnalyze env raw).2.parseCalls = 0 ∧
    (handleAnalyze env raw).2.spawnAttempts = 0 ∧
    (∀ raw2 : RawRequest, ∀ req : AnalysisRequest,
      validateRequest raw2 = Except.ok req → req.fen = pyStrip raw2.fen) := by
  have hfen : fen_must_be_non_empty raw.fen = Except.error "fen must be non-empty" := by
    unfold fen_must_be_non_empty
    rw [h]
    simp
  refine ⟨?_, ?_, ?_, ?_⟩
  · unfold handleAnalyze validateRequest
    rw [hfen]
    exact ⟨_, rfl, ⟨FieldId.fenField, "fen must be non-empty"⟩, by simp, rfl⟩
  · unfold handleAnalyze validateRequest
    rw [hfen]
    rfl
  · unfold handleAnalyze validateRequest
    rw [hfen]
    rfl
  · intro raw2 req hok
    unfold validateRequest at hok
    rcases h1 : fen_must_be_non_empty raw2.fen with m | v
    · rw [h1] at hok
      exact absurd hok (by simp)
    · rw [h1] at hok
      rcases h2 : depthErrsOf raw2 ++ eloErrsOf raw2 with _ | ⟨e1, erest⟩
      · rw [h2] at hok
        have hreq : req = ⟨v, (raw2.depth).getD 15, raw2.uci_elo⟩ := (Except.ok.inj hok).symm
        rw [hreq]
        exact fen_validator_ok_eq_strip raw2.fen v h1
      · rw [h2] at hok
        exact absurd hok (by simp)

/-- C9 witness: a whitespace-only fen is rejected at validation with a
fen-field error, zero parse attempts and zero spawns. -/
theorem handleAnalyze_blank_fen_witness :
    (∃ errs, (handleAnalyze okEnv ⟨"   ", some 10, none⟩).1 = ServiceResult.invalid errs ∧
      ∃ er ∈ errs, er.field = FieldId.fenField) ∧
    (handleAnalyze okEnv ⟨"   ", some 10, none⟩).2.parseCalls = 0 ∧
    (handleAnalyze okEnv ⟨"   ", some 10, none⟩).2.spawnAttempts = 0 :=
  ⟨(handleAnalyze_blank_fen okEnv ⟨"   ", some 10, none⟩ (by decide)).1,
   (handleAnalyze_blank_fen okEnv ⟨"   ", some 10, none⟩ (by decide)).2.1,
   (handleAnalyze_blank_fen okEnv ⟨"   ", some 10, none⟩ (by decide)).2.2.1⟩

end EngineService

namespace EngineService

/-- C4: when a strength limit is requested and the engine rejects or fails
the configuration call, the failure is absorbed locally: the call still
completes normally under depth bounding alone, no error surfaces to the
caller, and the result's best move and score are still populated. -/
theorem analyze_position_config_best_effort (env : Env) (req : AnalysisRequest)
    (board : Board) (e : Int) (msg : String) (s : PovScore) (m : Move)
    (rest : List Move) (info : AnalyseInfo)
    (helo : req.uci_elo = some e)
    (hconf : env.engine.configure e = Except.error msg)
    (hparse : env.parseFen req.fen = Except.ok board)
    (hpopen : env.engine.popenResult = Except.ok ())
    (hana : env.engine.analyse board req.depth = Except.ok info)
    (hscore : info.score = some s)
    (hpv : info.pv = some (m :: rest)) :
    (analyze_position env req).1 =
      Except.ok ⟨some (Move.uci m),
        some (Score.score (PovScore.white s) 100000), req.depth⟩ ∧
    ((analyze_position env req).2).configureCalls = 1 ∧
    ((analyze_position env req).2).releases = 1 := by
  unfold analyze_position
  simp [hparse, hpopen, hana, hscore, hpv, helo, hconf]

/-- C4 witness: with a 1500 Elo limit on an engine whose configuration
raises, the call still returns best move e2e4 with score 20. -/
theorem analyze_position_config_best_effort_witness :
    noEloEnv.engine.configure 1500 = Except.error "engine does not support UCI_Elo" ∧
    (analyze_position noEloEnv ⟨startFen, 10, some 1500⟩).1 =
      Except.ok ⟨some "e2e4", some 20, 10⟩ ∧
    ((analyze_position noEloEnv ⟨startFen, 10, some 1500⟩).2).configureCalls = 1 :=
  ⟨rfl,
   (analyze_position_config_best_effort noEloEnv ⟨startFen, 10, some 1500⟩ startBoard
     1500 "engine does not support UCI_Elo" ⟨Score.cp 20, Color.white⟩ ⟨"e2e4"⟩ []
     okInfo rfl rfl rfl rfl rfl rfl rfl).1,
   (analyze_position_config_best_effort noEloEnv ⟨startFen, 10, some 1500⟩ startBoard
     1500 "engine does not support UCI_Elo" ⟨Score.cp 20, Color.white⟩ ⟨"e2e4"⟩ []
     okInfo rfl rfl rfl rfl rfl rfl rfl).2.1⟩

end EngineService

namespace EngineService

/-- C5: when the evaluation is a forced mate, the reported score is the
White-perspective value mapped through the 100000 mate sentinel: a White
forced mate in k is reported as 100000 - k (large positive), a Black
forced mate in k as -(100000 - k) (large negative); for any realistic
mate distance (at most 1000 plies) the magnitude is at least 99000, so
the value is never a near-zero centipawn number and never the raw
distance-to-mate count. -/
theorem analyze_position_mate_sentinel (env : Env) (req : AnalysisRequest)
    (board : Board) (info : AnalyseInfo) (s : PovScore) (k : Int) (m : Move)
    (rest : List Move)
    (hparse : env.parseFen req.fen = Except.ok board)
    (hpopen : env.engine.popenResult = Except.ok ())
    (hana : env.engine.analyse board req.depth = Except.ok info)
    (hscore : info.score = some s)
    (hmate : PovScore.white s = Score.mate k)
    (hk : k ≠ 0) (hkb : k.natAbs ≤ 1000)
    (hpv : info.pv = some (m :: rest)) :
    (analyze_position env req).1 =
      Except.ok ⟨some (Move.uci m), some (Score.score (Score.mate k) 100000), req.depth⟩ ∧
    (0 < k → Score.score (Score.mate k) 100000 = 100000 - k ∧
      99000 ≤ Score.score (Score.mate k) 100000) ∧
    (k < 0 → Score.score (Score.mate k) 100000 = -100000 - k ∧
      Score.score (Score.mate k) 100000 ≤ -99000) ∧
    Score.score (Score.mate k) 100000 ≠ k := by
  refine ⟨?_, ?_, ?_, ?_⟩
  · unfold analyze_position
    simp [hparse, hpopen, hana, hscore, hpv, hmate]
  · intro hkpos
    simp only [Score.score]
    rw [if_pos hkpos]
    omega
  · intro hkneg
    simp only [Score.score]
    rw [if_neg (by omega : ¬(0 < k))]
    omega
  · simp only [Score.score]
    by_cases hkpos : 0 < k
    · rw [if_pos hkpos]; omega
    · rw [if_neg hkpos]; omega

/-- C5 witness: a White forced mate in 3 is reported as 99997 — large,
positive, and not the raw ply count. -/
theorem analyze_position_mate_sentinel_witness :
    (analyze_position mateIn3Env ⟨startFen, 12, none⟩).1 =
      Except.ok ⟨some "d1h5", some 99997, 12⟩ ∧
    Score.score (Score.mate 3) 100000 = 100000 - 3 ∧
    (99000 : Int) ≤ Score.score (Score.mate 3) 100000 ∧
    Score.score (Score.mate 3) 100000 ≠ 3 :=
  ⟨(analyze_position_mate_sentinel mateIn3Env ⟨startFen, 12, none⟩ startBoard
      ⟨some ⟨Score.mate 3, Color.white⟩, some [⟨"d1h5"⟩]⟩ ⟨Score.mate 3, Color.white⟩ 3
      ⟨"d1h5"⟩ [] rfl rfl rfl rfl rfl (by decide) (by decide) rfl).1,
   (analyze_position_mate_sentinel mateIn3Env ⟨startFen, 12, none⟩ startBoard
      ⟨some ⟨Score.mate 3, Color.white⟩, some [⟨"d1h5"⟩]⟩ ⟨Score.mate 3, Color.white⟩ 3
      ⟨"d1h5"⟩ [] rfl rfl rfl rfl rfl (by decide) (by decide) rfl).2.1 (by decide) |>.1,
   (analyze_position_mate_sentinel mateIn3Env ⟨startFen, 12, none⟩ startBoard
      ⟨some ⟨Score.mate 3, Color.white⟩, some [⟨"d1h5"⟩]⟩ ⟨Score.mate 3, Color.white⟩ 3
      ⟨"d1h5"⟩ [] rfl rfl rfl rfl rfl (by decide) (by decide) rfl).2.1 (by decide) |>.2,
   (analyze_position_mate_sentinel mateIn3Env ⟨startFen, 12, none⟩ startBoard
      ⟨some ⟨Score.mate 3, Color.white⟩, some [⟨"d1h5"⟩]⟩ ⟨Score.mate 3, Color.white⟩ 3
      ⟨"d1h5"⟩ [] rfl rfl rfl rfl rfl (by decide) (by decide) rfl).2.2.2⟩

end EngineService

namespace EngineService

/-- C8: every successful result reports in its depth field exactly the
depth used by the search — the bound passed to `engine.analyse`, which is
the requested depth — and the trace records that same depth as the search
limit.  In particular, at depth 1 with a healthy engine the result has a
present best move and depth 1 (see the witness for the concrete
starting-position scenario). -/
theorem analyze_position_depth_used (env : Env) (req : AnalysisRequest)
    (resp : AnalysisResponse)
    (h : (analyze_position env req).1 = Except.ok resp) :
    resp.depth = req.depth ∧
    ((analyze_position env req).2).analyseDepth = some req.depth := by
  unfold analyze_position at h ⊢
  rcases h1 : env.parseFen req.fen with ex | board
  · exact absurd h (by simp [h1])
  rcases h2 : env.engine.popenResult with ex2 | u
  · exact absurd h (by simp [h1, h2])
  rcases h3 : env.engine.analyse board req.depth with ex3 | info
  · exact absurd h (by simp [h1, h2, h3])
  rcases h4 : (info.pv).getD [] with _ | ⟨m, mrest⟩
  · rcases h5 : env.engine.play board req.depth with ex5 | r
    · exact absurd h (by simp [h1, h2, h3, h4, h5])
    · obtain ⟨bm, sc, d⟩ := resp
      simp [h1, h2, h3, h4, h5] at h ⊢
      exact h.2.2.symm
  · obtain ⟨bm, sc, d⟩ := resp
    simp [h1, h2, h3, h4] at h ⊢
    exact h.2.2.symm

/-- C8 witness: the concrete scenario — starting position at depth 1 on a
healthy engine — yields best move e2e4 (present), score 20 (near zero),
and depth 1. -/
theorem analyze_position_depth_used_witness :
    (analyze_position okEnv ⟨startFen, 1, none⟩).1 =
      Except.ok ⟨some "e2e4", some 20, 1⟩ ∧
    (⟨some "e2e4", some 20, 1⟩ : AnalysisResponse).depth = 1 ∧
    ((analyze_position okEnv ⟨startFen, 1, none⟩).2).analyseDepth = some 1 :=
  ⟨rfl,
   (analyze_position_depth_used okEnv ⟨startFen, 1, none⟩ ⟨some "e2e4", some 20, 1⟩ rfl).1,
   (analyze_position_depth_used okEnv ⟨startFen, 1, none⟩ ⟨some "e2e4", some 20, 1⟩ rfl).2⟩

end EngineService

namespace EngineService

/-- C6 counterexample: on the fool's-mate position — a terminal position
with no legal moves — the engine reports no principal variation and the
handler DOES issue the fallback play search (`playCalls = 1`), refuting
the claim that no fallback search is triggered on terminal input
positions. -/
theorem analyze_position_terminal_fallback_cex :
    terminalEnv.parseFen matedFen = Except.ok matedBoard ∧
    matedBoard.hasLegalMoves = false ∧
    ((analyze_position terminalEnv ⟨matedFen, 5, none⟩).2).playCalls = 1 :=
  ⟨rfl, rfl, rfl⟩

/-- C6 amended: on a terminal input position the call returns a valid
result — not an error — with best_move absent; however the fallback play
search IS issued: the handler triggers the fallback whenever the primary
search reports no principal line, regardless of terminality, and on a
terminal position the fallback search reports no move, so best_move still
ends up absent. -/
theorem analyze_position_terminal_result (env : Env) (req : AnalysisRequest)
    (board : Board) (info : AnalyseInfo)
    (hparse : env.parseFen req.fen = Except.ok board)
    (hterm : board.hasLegalMoves = false)
    (hpopen : env.engine.popenResult = Except.ok ())
    (hana : env.engine.analyse board req.depth = Except.ok info)
    (hpv : info.pv = none ∨ info.pv = some [])
    (hplay : env.engine.play board req.depth = Except.ok ⟨none⟩) :
    (∃ sc, (analyze_position env req).1 = Except.ok ⟨none, sc, req.depth⟩) ∧
    ((analyze_position env req).2).playCalls = 1 := by
  unfold analyze_position
  rcases hpv with hpv | hpv <;>
    simp [hparse, hpopen, hana, hpv, hplay]

/-- C6 witness: the concrete terminal scenario — the fallback ran, the
result is a success with best_move absent and the mate score for the
checkmated side. -/
theorem analyze_position_terminal_result_witness :
    (analyze_position terminalEnv ⟨matedFen, 5, none⟩).1 =
      Except.ok ⟨none, some (-100000), 5⟩ ∧
    ((analyze_position terminalEnv ⟨matedFen, 5, none⟩).2).playCalls = 1 :=
  ⟨rfl,
   (analyze_position_terminal_result terminalEnv ⟨matedFen, 5, none⟩ matedBoard
     ⟨some ⟨Score.mate 0, Color.white⟩, none⟩ rfl rfl rfl rfl (Or.inl rfl) rfl).2⟩

end EngineService

namespace EngineService

/-- C7 counterexample: a run in which every step succeeds but the release
(quit) step raises still returns a success to the caller — the release
failure is silently swallowed by the cleanup block, refuting the claim
that every non-configuration failure, including one on release,
propagates to the caller. -/
theorem analyze_position_quit_swallowed_cex :
    quitFailEnv.engine.quitResult = Except.error "engine process died before quit" ∧
    (analyze_position quitFailEnv ⟨startFen, 15, none⟩).1 =
      Except.ok ⟨some "e2e4", some 20, 15⟩ ∧
    ((analyze_position quitFailEnv ⟨startFen, 15, none⟩).2).releases = 1 :=
  ⟨rfl, rfl, rfl⟩

/-- C7 amended: the handler absorbs exactly two failures — the
best-effort strength-configuration failure and a failure of the release
(quit) step inside the cleanup block; every failure of session
acquisition, of the primary search, or of the fallback search propagates
to the caller.  Formally: any successful result implies the FEN parsed,
popen succeeded, analyse succeeded, and either a principal line existed
or the fallback play succeeded — while the configure and quit outcomes
are unconstrained. -/
theorem analyze_position_only_config_and_quit_absorbed (env : Env)
    (req : AnalysisRequest) (resp : AnalysisResponse)
    (h : (analyze_position env req).1 = Except.ok resp) :
    env.engine.popenResult = Except.ok () ∧
    ∃ board info, env.parseFen req.fen = Except.ok board ∧
      env.engine.analyse board req.depth = Except.ok info ∧
      ((∃ m rest, (info.pv).getD [] = m :: rest) ∨
        ∃ r, env.engine.play board req.depth = Except.ok r) := by
  unfold analyze_position at h
  rcases h1 : env.parseFen req.fen with ex | board
  · exact absurd h (by simp [h1])
  rcases h2 : env.engine.popenResult with ex2 | u
  · exact absurd h (by simp [h1, h2])
  rcases h3 : env.engine.analyse board req.depth with ex3 | info
  · exact absurd h (by simp [h1, h2, h3])
  rcases h4 : (info.pv).getD [] with _ | ⟨m, mrest⟩
  · rcases h5 : env.engine.play board req.depth with ex5 | r
    · exact absurd h (by simp [h1, h2, h3, h4, h5])
    · exact ⟨rfl, board, info, rfl, h3, Or.inr ⟨r, h5⟩⟩
  · exact ⟨rfl, board, info, rfl, h3, Or.inl ⟨m, mrest, h4⟩⟩

/-- C7 amended witness: a fully healthy run certifies its own popen,
parse, analyse and principal-line facts through the theorem. -/
theorem analyze_position_only_config_and_quit_absorbed_witness :
    okEnv.engine.popenResult = Except.ok () ∧
    ∃ board info, okEnv.parseFen startFen = Except.ok board ∧
      okEnv.engine.analyse board 15 = Except.ok info ∧
      ((∃ m rest, (info.pv).getD [] = m :: rest) ∨
        ∃ r, okEnv.engine.play board 15 = Except.ok r) :=
  analyze_position_only_config_and_quit_absorbed okEnv ⟨startFen, 15, none⟩
    ⟨some "e2e4", some 20, 15⟩ rfl

end EngineService
